import Mathlib

set_option maxHeartbeats 1000000

/-!
Verification development for the Quadrotor_Irrlicht repository.

Part one embeds the telemetry graph (src/Quadrotor_Irrlicht/Graph.h) over ℚ,
with the ring buffer it stores modelled from the specification (RingBuffer.h
is not among the available sources).  Part two models the flight core
(Motor, MotorMixer, FuzzyPDController, DynamicsIntegrator, Quadrotor) from
the specification, since the controller and vehicle headers are likewise not
among the available sources.
-/

namespace GraphSim

/-- A telemetry sample, the role played by irr::core::vector2df in Graph.h:
X is the sample abscissa (simulation time), Y the value. -/
structure Sample where
  x : ℚ
  y : ℚ
deriving DecidableEq

/-- Modelled from the spec: RingBuffer.h is missing from the sources
(Graph.h includes it).  The spec describes each telemetry channel as a
fixed-capacity circular buffer that appends samples, overwrites the oldest
sample once full, and preserves chronological order for the retained
window.  The retained window is `data`, oldest first. -/
structure RingBuffer (α : Type) where
  bufSize : ℕ
  data : List α
deriving DecidableEq

/-- Modelled from the spec: append one value, dropping the oldest retained
value when the buffer is already at capacity. -/
def RingBuffer.push {α : Type} (rb : RingBuffer α) (v : α) : RingBuffer α :=
  if rb.data.length < rb.bufSize then { rb with data := rb.data ++ [v] }
  else { rb with data := rb.data.tail ++ [v] }

/-- Number of currently retained elements, as read by Graph::render. -/
def RingBuffer.getNumElements {α : Type} (rb : RingBuffer α) : ℕ :=
  rb.data.length

/-- Indexed read of a retained sample (oldest = index 0), as read by
Graph::render via buffers[i]->get(idx). -/
def RingBuffer.get (rb : RingBuffer Sample) (i : ℕ) : Sample :=
  rb.data.getD i ⟨0, 0⟩

/-- A freshly constructed, empty ring buffer of the given capacity. -/
def RingBuffer.empty (α : Type) (n : ℕ) : RingBuffer α :=
  ⟨n, []⟩

/-- Fold a whole sequence of appends into a ring buffer. -/
def pushAll {α : Type} (rb : RingBuffer α) (vs : List α) : RingBuffer α :=
  vs.foldl RingBuffer.push rb

/-- An axis-aligned screen rectangle, the role of irr::core::rect of s32:
(x1, y1) is UpperLeftCorner, (x2, y2) is LowerRightCorner. -/
structure Rect where
  x1 : ℤ
  y1 : ℤ
  x2 : ℤ
  y2 : ℤ
deriving DecidableEq

/-- An ARGB colour, the role of irr::video::SColor. -/
structure Color where
  a : ℕ
  r : ℕ
  g : ℕ
  b : ℕ
deriving DecidableEq

/-- The Graph class state from src/Quadrotor_Irrlicht/Graph.h (the font
pointer is an external handle and carries no observable state). -/
structure Graph where
  pos : Rect
  colorRect : Color
  colorFont : Color
  caption : String
  width : ℤ
  height : ℤ
  bufSize : ℕ
  numBuffers : ℕ
  buffers : List (RingBuffer Sample)
  nextIdx : ℤ
  numElements : ℤ
  maxVal : ℚ
deriving DecidableEq

/-- The Graph constructor (Graph.h lines 24-42): stores caption, maxVal,
pos, bufSize and numBuffers, allocates numBuffers empty ring buffers of
capacity bufSize, sets the two colours and derives width and height from
the rectangle. -/
def Graph.make (caption : String) (pos : Rect) (maxVal : ℚ)
    (numBuffers bufSize : ℕ) : Graph :=
  { pos := pos
    colorRect := ⟨150, 50, 50, 50⟩
    colorFont := ⟨255, 255, 255, 255⟩
    caption := caption
    width := pos.x2 - pos.x1
    height := pos.y2 - pos.y1
    bufSize := bufSize
    numBuffers := numBuffers
    buffers := List.replicate numBuffers (RingBuffer.empty Sample bufSize)
    nextIdx := 0
    numElements := 0
    maxVal := maxVal }

/-- Push a value onto channel b of a channel list, leaving every other
channel untouched; this is the effect of buffers[buffer]->push(val). -/
def setChan : List (RingBuffer Sample) → ℕ → Sample → List (RingBuffer Sample)
  | [], _, _ => []
  | rb :: rest, 0, v => rb.push v :: rest
  | rb :: rest, Nat.succ b, v => rb :: setChan rest b v

/-- Graph::addVal (Graph.h lines 50-52): buffers[buffer]->push(val). -/
def Graph.addVal (g : Graph) (buffer : ℕ) (val : Sample) : Graph :=
  { g with buffers := setChan g.buffers buffer val }

/-- A drawing command issued to the video driver during render. -/
inductive DrawCmd where
  | rect2D : Color → Rect → DrawCmd
  | text : String → Rect → Color → DrawCmd
  | line2D : ℤ × ℤ → ℤ × ℤ → Color → DrawCmd
deriving DecidableEq

/-- The C-style (s32) cast of a float: truncation toward zero. -/
def ratTrunc (q : ℚ) : ℤ :=
  if 0 ≤ q then ⌊q⌋ else -⌊-q⌋

/-- The per-channel line colour of Graph::render line 62:
color.set(255, 255*(i==0), 255*(i==1), 255*(i==2)). -/
def lineColor (i : ℕ) : Color :=
  ⟨255, if i = 0 then 255 else 0, if i = 1 then 255 else 0,
    if i = 2 then 255 else 0⟩

/-- The screen endpoint computed for sample idx of a channel
(Graph.h lines 70-73). -/
def segEndpoint (g : Graph) (rb : RingBuffer Sample) (startVal xSpan : ℚ)
    (idx : ℕ) : ℤ × ℤ :=
  (ratTrunc (((rb.get idx).x - startVal) / xSpan * (g.width : ℚ)) + g.pos.x1,
   g.pos.y2 - ratTrunc ((rb.get idx).y / g.maxVal * (g.height : ℚ)))

/-- The inner loop of Graph::render (lines 68-78): idx runs from
numVals - 2 down to 0; each iteration computes start and end points,
breaks when the start point falls left of the plot rectangle, and
otherwise emits one line.  The Graph value is threaded through so that
the embedding records which state each iteration leaves behind. -/
def drawLineSegs (rb : RingBuffer Sample) (startVal xSpan : ℚ) (color : Color) :
    Graph → ℕ → Graph × List DrawCmd
  | g, 0 =>
    let sp := segEndpoint g rb startVal xSpan 0
    let ep := segEndpoint g rb startVal xSpan 1
    if sp.1 < g.pos.x1 then (g, [])
    else (g, [DrawCmd.line2D sp ep color])
  | g, Nat.succ n =>
    let sp := segEndpoint g rb startVal xSpan (n + 1)
    let ep := segEndpoint g rb startVal xSpan (n + 2)
    if sp.1 < g.pos.x1 then (g, [])
    else
      let rest := drawLineSegs rb startVal xSpan color g n
      (rest.1, DrawCmd.line2D sp ep color :: rest.2)

/-- One iteration of the outer loop of Graph::render (lines 61-79) for
channel i: channels holding fewer than two samples are skipped, otherwise
startVal and xSpan are computed from the first and last retained samples
and the line segments are drawn. -/
def renderChannel (g : Graph) (i : ℕ) : Graph × List DrawCmd :=
  let rb := g.buffers.getD i (RingBuffer.empty Sample 0)
  let numVals := rb.getNumElements
  if numVals < 2 then (g, [])
  else
    let startVal := (rb.get 0).x
    let xSpan := (rb.get (numVals - 1)).x - startVal
    drawLineSegs rb startVal xSpan (lineColor i) g (numVals - 2)

/-- The outer loop over channels i, i+1, ..., i+k-1, threading the state. -/
def renderChans : Graph → ℕ → ℕ → Graph × List DrawCmd
  | g, _, 0 => (g, [])
  | g, i, Nat.succ k =>
    let step1 := renderChannel g i
    let rest := renderChans step1.1 (i + 1) k
    (rest.1, step1.2 ++ rest.2)

/-- Graph::render (Graph.h lines 56-80): draws the backdrop rectangle, the
caption, then every channel's polyline; returns the state it leaves the
Graph in together with the issued drawing commands. -/
def Graph.render (g : Graph) : Graph × List DrawCmd :=
  let rest := renderChans g 0 g.numBuffers
  (rest.1, DrawCmd.rect2D g.colorRect g.pos ::
    DrawCmd.text g.caption g.pos g.colorFont :: rest.2)

/-- The divisor used by Graph::render for a channel (Graph.h lines 66-67):
last retained sample's X minus first retained sample's X. -/
def chanXSpan (rb : RingBuffer Sample) : ℚ :=
  (rb.get (rb.getNumElements - 1)).x - (rb.get 0).x

/-- A concrete Graph obtained from the constructor followed by two addVal
calls that record two samples with the same abscissa on channel 0. -/
def gSameX : Graph :=
  ((Graph.make "g" ⟨0, 0, 100, 50⟩ 10 1 4).addVal 0 ⟨5, 1⟩).addVal 0 ⟨5, 2⟩

end GraphSim

namespace QuadCore

/-- Clamp a rational to the interval [lo, hi]. -/
def clampQ (x lo hi : ℚ) : ℚ := max lo (min x hi)

/-- A 3D vector over ℚ. -/
structure Vec3 where
  x : ℚ
  y : ℚ
  z : ℚ
deriving DecidableEq

/-- Modelled from the spec: the vehicle physical parameters, immutable
after construction — body mass, motor arm length, thrust coefficient,
yaw (reaction) torque coefficient, gravity, motor speed bound, motor
maximum angular acceleration, and the diagonal inertia. -/
structure Params where
  mass : ℚ
  armLen : ℚ
  kf : ℚ
  kt : ℚ
  g : ℚ
  maxSpeed : ℚ
  maxRate : ℚ
  inertiaX : ℚ
  inertiaY : ℚ
  inertiaZ : ℚ
deriving DecidableEq

/-- Modelled from the spec: one rotor's actual and commanded angular
speed.  The Motor and vehicle headers are not among the sources. -/
structure Motor where
  actualSpeed : ℚ
  commandedSpeed : ℚ
deriving DecidableEq

/-- Modelled from the spec: setCommanded clamps to [0, maxSpeed] and
stores the target the actual speed will move toward. -/
def Motor.setCommanded (p : Params) (m : Motor) (s : ℚ) : Motor :=
  { m with commandedSpeed := clampQ s 0 p.maxSpeed }

/-- Modelled from the spec: the bounded-rate motor response
actual += clamp(commanded - actual, -maxRate*dt, +maxRate*dt). -/
def Motor.step (p : Params) (dt : ℚ) (m : Motor) : Motor :=
  { m with actualSpeed := m.actualSpeed +
      clampQ (m.commandedSpeed - m.actualSpeed) (-(p.maxRate * dt)) (p.maxRate * dt) }

/-- Modelled from the spec: instantaneous thrust, affine in actualSpeed. -/
def Motor.thrust (p : Params) (m : Motor) : ℚ := p.kf * m.actualSpeed

/-- Four per-motor scalars (commanded speeds, or actual speeds). -/
structure Cmd4 where
  c1 : ℚ
  c2 : ℚ
  c3 : ℚ
  c4 : ℚ
deriving DecidableEq

/-- Scale all four entries by one common factor. -/
def Cmd4.scale (s : ℚ) (c : Cmd4) : Cmd4 :=
  ⟨s * c.c1, s * c.c2, s * c.c3, s * c.c4⟩

/-- The largest of the four entries. -/
def Cmd4.maxCmd (c : Cmd4) : ℚ :=
  max (max c.c1 c.c2) (max c.c3 c.c4)

/-- Modelled from the spec: the unsaturated allocation solving the linear
mixing matrix of a plus-configuration quadrotor — motor 1 on +pitch arm,
motor 3 on -pitch arm, motors 2/4 on the roll arms, alternating spin
directions, linear thrust T_i = kf * speed_i. -/
def mixRaw (p : Params) (t : ℚ) (tau : Vec3) : Cmd4 :=
  ⟨t / (4 * p.kf) - tau.y / (2 * p.armLen * p.kf) + tau.z / (4 * p.kt),
   t / (4 * p.kf) - tau.x / (2 * p.armLen * p.kf) - tau.z / (4 * p.kt),
   t / (4 * p.kf) + tau.y / (2 * p.armLen * p.kf) + tau.z / (4 * p.kt),
   t / (4 * p.kf) + tau.x / (2 * p.armLen * p.kf) - tau.z / (4 * p.kt)⟩

/-- Modelled from the spec: MotorMixer.mix with the documented saturation
policy — when the unsaturated allocation would exceed the motor speed
bound, all four commands are scaled by the one common factor
maxSpeed / maxCmd rather than clamped independently. -/
def mix (p : Params) (t : ℚ) (tau : Vec3) : Cmd4 :=
  let r := mixRaw p t tau
  if p.maxSpeed < r.maxCmd then r.scale (p.maxSpeed / r.maxCmd) else r

/-- Modelled from the spec: MotorMixer.netForceTorque, the inverse
mapping from four motor speeds to net thrust and body torques. -/
def netForceTorque (p : Params) (s : Cmd4) : ℚ × Vec3 :=
  (p.kf * (s.c1 + s.c2 + s.c3 + s.c4),
   ⟨p.armLen * p.kf * (s.c4 - s.c2),
    p.armLen * p.kf * (s.c3 - s.c1),
    p.kt * (s.c1 - s.c2 + s.c3 - s.c4)⟩)

/-- All four entries within the motor speed range [0, maxSpeed]. -/
def cmdInRange (p : Params) (c : Cmd4) : Prop :=
  0 ≤ c.c1 ∧ c.c1 ≤ p.maxSpeed ∧ 0 ≤ c.c2 ∧ c.c2 ≤ p.maxSpeed ∧
  0 ≤ c.c3 ∧ c.c3 ≤ p.maxSpeed ∧ 0 ≤ c.c4 ∧ c.c4 ≤ p.maxSpeed

instance (p : Params) (c : Cmd4) : Decidable (cmdInRange p c) := by
  unfold cmdInRange; infer_instance

/-- Clamp a rational to [0, 1]. -/
def clamp01 (x : ℚ) : ℚ := max 0 (min x 1)

/-- Membership degree of the Negative linguistic level (left shoulder). -/
def muNeg (x : ℚ) : ℚ := clamp01 (-x)

/-- Membership degree of the Zero linguistic level (triangle at 0). -/
def muZero (x : ℚ) : ℚ := max 0 (1 - |x|)

/-- Membership degree of the Positive linguistic level (right shoulder). -/
def muPos (x : ℚ) : ℚ := clamp01 x

/-- Modelled from the spec: the fuzzy correction — fuzzify error and
error rate into Negative/Zero/Positive membership degrees, evaluate the
3x3 rule table, and defuzzify by the weighted average of the rule output
levels (the membership degrees of each input sum to one, so the
normalizing denominator is one). -/
def fuzzyCorr (e er : ℚ) : ℚ :=
  muNeg e * muNeg er * 1 + muNeg e * muZero er * (1 / 2) + muNeg e * muPos er * 0 +
  muZero e * muNeg er * (1 / 2) + muZero e * muZero er * 0 + muZero e * muPos er * (-(1 / 2)) +
  muPos e * muNeg er * 0 + muPos e * muZero er * (-(1 / 2)) + muPos e * muPos er * (-1)

/-- Proportional gain of the classical term. -/
def kpGain : ℚ := 2

/-- Derivative gain of the classical term. -/
def kdGain : ℚ := 1

/-- Weight of the fuzzy correction term. -/
def kfzGain : ℚ := 1 / 2

/-- Per-axis control law: classical PD term plus the fuzzy correction. -/
def axisCtl (e er : ℚ) : ℚ :=
  kpGain * e + kdGain * er + kfzGain * fuzzyCorr e er

/-- Modelled from the spec: the vehicle rigid-body state — position,
three-axis orientation (radians), linear and angular velocity. -/
structure RigidBodyState where
  position : Vec3
  orientation : Vec3
  linearVelocity : Vec3
  angularVelocity : Vec3
deriving DecidableEq

/-- Modelled from the spec: FuzzyPDController — per-axis errors between
target and current state, a derivative term read directly from the
velocity states, a fuzzy correction, assembled into net thrust (gravity
feedforward plus vertical-axis control) and three body torques. -/
def controller (p : Params) (st target : RigidBodyState) : ℚ × Vec3 :=
  (p.mass * p.g +
     axisCtl (target.position.z - st.position.z)
       (target.linearVelocity.z - st.linearVelocity.z),
   ⟨axisCtl (target.orientation.x - st.orientation.x)
      (target.angularVelocity.x - st.angularVelocity.x),
    axisCtl (target.orientation.y - st.orientation.y)
      (target.angularVelocity.y - st.angularVelocity.y),
    axisCtl (target.orientation.z - st.orientation.z)
      (target.angularVelocity.z - st.angularVelocity.z)⟩)

/-- The four motors of the vehicle. -/
structure Motor4 where
  m1 : Motor
  m2 : Motor
  m3 : Motor
  m4 : Motor
deriving DecidableEq

/-- Set the four commanded speeds (each clamped by Motor.setCommanded). -/
def setCommands (p : Params) (ms : Motor4) (c : Cmd4) : Motor4 :=
  ⟨ms.m1.setCommanded p c.c1, ms.m2.setCommanded p c.c2,
   ms.m3.setCommanded p c.c3, ms.m4.setCommanded p c.c4⟩

/-- Advance all four motors by the bounded-rate response. -/
def stepMotors (p : Params) (dt : ℚ) (ms : Motor4) : Motor4 :=
  ⟨ms.m1.step p dt, ms.m2.step p dt, ms.m3.step p dt, ms.m4.step p dt⟩

/-- The four actual speeds. -/
def actualSpeeds (ms : Motor4) : Cmd4 :=
  ⟨ms.m1.actualSpeed, ms.m2.actualSpeed, ms.m3.actualSpeed, ms.m4.actualSpeed⟩

/-- The four commanded speeds. -/
def commandedSpeeds (ms : Motor4) : Cmd4 :=
  ⟨ms.m1.commandedSpeed, ms.m2.commandedSpeed, ms.m3.commandedSpeed, ms.m4.commandedSpeed⟩

/-- Modelled from the spec: the Quadrotor orchestrator owning the
physical parameters, one RigidBodyState, and four Motors. -/
structure Quadrotor where
  params : Params
  state : RigidBodyState
  motors : Motor4
deriving DecidableEq

/-- Modelled from the spec: DynamicsIntegrator.step — advance each motor's
actual speed, derive net thrust and torque from the actual speeds via the
mixer's inverse mapping plus gravity, then semi-implicit Euler: velocity
first, then position from the new velocity; angular velocity from the
torque over the diagonal inertia, then the three-axis orientation from
the new angular velocity. -/
def integratorStep (dt : ℚ) (q : Quadrotor) : Quadrotor :=
  let p := q.params
  let ms := stepMotors p dt q.motors
  let ft := netForceTorque p (actualSpeeds ms)
  let v := q.state.linearVelocity
  let v2 : Vec3 := ⟨v.x, v.y, v.z + (ft.1 / p.mass - p.g) * dt⟩
  let pos := q.state.position
  let pos2 : Vec3 := ⟨pos.x + v2.x * dt, pos.y + v2.y * dt, pos.z + v2.z * dt⟩
  let w := q.state.angularVelocity
  let w2 : Vec3 := ⟨w.x + ft.2.x / p.inertiaX * dt, w.y + ft.2.y / p.inertiaY * dt,
    w.z + ft.2.z / p.inertiaZ * dt⟩
  let o := q.state.orientation
  let o2 : Vec3 := ⟨o.x + w2.x * dt, o.y + w2.y * dt, o.z + w2.z * dt⟩
  { q with motors := ms, state := ⟨pos2, o2, v2, w2⟩ }

/-- Modelled from the spec: Quadrotor.update(dt) wires
FuzzyPDController → MotorMixer → DynamicsIntegrator, each later stage
consuming exactly the outputs the earlier stage produced in this call. -/
def Quadrotor.update (q : Quadrotor) (target : RigidBodyState) (dt : ℚ) : Quadrotor :=
  let ct := controller q.params q.state target
  let cmds := mix q.params ct.1 ct.2
  integratorStep dt { q with motors := setCommands q.params q.motors cmds }

/-- Modelled from the spec: validity of the physical parameters checked
at construction. -/
def validParams (p : Params) : Prop :=
  0 < p.mass ∧ 0 < p.kf ∧ 0 < p.kt ∧ 0 < p.armLen ∧ 0 < p.g ∧
  0 < p.maxSpeed ∧ 0 < p.maxRate ∧ 0 < p.inertiaX ∧ 0 < p.inertiaY ∧ 0 < p.inertiaZ

instance (p : Params) : Decidable (validParams p) := by
  unfold validParams; infer_instance

/-- Modelled from the spec: construction validates the physical
parameters and rejects invalid ones before any vehicle exists. -/
def mkQuadrotor (p : Params) (st0 : RigidBodyState) : Option Quadrotor :=
  if validParams p then some ⟨p, st0, ⟨⟨0, 0⟩, ⟨0, 0⟩, ⟨0, 0⟩, ⟨0, 0⟩⟩⟩ else none

/-- Modelled from the spec: a valid time step is nonnegative (NaN is not
representable in the rational embedding; the negative case is the
rejected one). -/
def validDt (dt : ℚ) : Prop := 0 ≤ dt

instance (dt : ℚ) : Decidable (validDt dt) := by
  unfold validDt; infer_instance

/-- Modelled from the spec: update(dt) rejects an invalid dt before
touching the simulation state. -/
def updateChecked (q : Quadrotor) (target : RigidBodyState) (dt : ℚ) : Option Quadrotor :=
  if validDt dt then some (q.update target dt) else none

/-- Modelled from the spec: the direct motor-speed override rejects
speeds outside [0, maxSpeed] before touching the motors. -/
def setMotorSpeedChecked (q : Quadrotor) (c : Cmd4) : Option Quadrotor :=
  if cmdInRange q.params c then
    some { q with motors := setCommands q.params q.motors c }
  else none

end QuadCore

namespace OrientQ

/-- Modelled from the spec: renormalize the orientation quaternion to
counteract integration drift. -/
noncomputable def qnormalize (q : Quaternion ℝ) : Quaternion ℝ := ‖q‖⁻¹ • q

/-- Modelled from the spec: one orientation integration step — the
quaternion derivative update q + (dt/2) * q * ω for a constant pure
angular-velocity quaternion ω, followed by renormalization. -/
noncomputable def orientStep (dt : ℝ) (w : Quaternion ℝ) (q : Quaternion ℝ) : Quaternion ℝ :=
  qnormalize (q + (dt / 2) • (q * w))

/-- N consecutive orientation integration steps. -/
noncomputable def orientIter (dt : ℝ) (w : Quaternion ℝ) (n : ℕ) (q : Quaternion ℝ) :
    Quaternion ℝ :=
  (orientStep dt w)^[n] q

end OrientQ

open GraphSim QuadCore OrientQ

theorem push_bufSize {α : Type} (rb : RingBuffer α) (v : α) :
    (rb.push v).bufSize = rb.bufSize := by
  unfold RingBuffer.push; split <;> rfl

theorem push_data_drop {α : Type} (rb : RingBuffer α) (v : α)
    (hle : rb.data.length ≤ rb.bufSize) (hpos : 0 < rb.bufSize) :
    (rb.push v).data = (rb.data ++ [v]).drop (rb.data.length + 1 - rb.bufSize) := by
  rcases Nat.lt_or_ge rb.data.length rb.bufSize with h | h
  · have h0 : rb.data.length + 1 - rb.bufSize = 0 := by omega
    simp only [RingBuffer.push, if_pos h, h0, List.drop_zero]
  · have hnot : ¬ rb.data.length < rb.bufSize := by omega
    have h1 : rb.data.length + 1 - rb.bufSize = 1 := by omega
    have hlen : 1 ≤ rb.data.length := by omega
    simp only [RingBuffer.push, if_neg hnot, h1]
    rw [List.drop_append_of_le_length hlen, List.drop_one]

theorem push_length_le {α : Type} (rb : RingBuffer α) (v : α)
    (hle : rb.data.length ≤ rb.bufSize) (hpos : 0 < rb.bufSize) :
    (rb.push v).data.length ≤ rb.bufSize := by
  rw [push_data_drop rb v hle hpos]
  simp only [List.length_drop, List.length_append, List.length_singleton]
  omega

theorem pushAll_spec {α : Type} : ∀ (vs : List α) (rb : RingBuffer α),
    rb.data.length ≤ rb.bufSize → 0 < rb.bufSize →
    (pushAll rb vs).bufSize = rb.bufSize ∧
    (pushAll rb vs).data = (rb.data ++ vs).drop (rb.data.length + vs.length - rb.bufSize)
  | [], rb, hle, hpos => by
    have h0 : rb.data.length - rb.bufSize = 0 := by omega
    refine ⟨rfl, ?_⟩
    simp [pushAll, h0]
  | v :: vs, rb, hle, hpos => by
    have hstep : pushAll rb (v :: vs) = pushAll (rb.push v) vs := rfl
    have hle2 : (rb.push v).data.length ≤ (rb.push v).bufSize := by
      rw [push_bufSize]; exact push_length_le rb v hle hpos
    have hpos2 : 0 < (rb.push v).bufSize := by rw [push_bufSize]; exact hpos
    obtain ⟨h1, h2⟩ := pushAll_spec vs (rb.push v) hle2 hpos2
    rw [push_bufSize] at h1 h2
    rw [push_data_drop rb v hle hpos] at h2
    refine ⟨by rw [hstep, h1], ?_⟩
    rw [hstep, h2]
    have hA : rb.data.length + 1 - rb.bufSize ≤ (rb.data ++ [v]).length := by
      simp only [List.length_append, List.length_singleton]; omega
    rw [← List.drop_append_of_le_length hA]
    rw [List.drop_drop, List.append_assoc, List.singleton_append]
    congr 1
    simp only [List.length_drop, List.length_append, List.length_singleton, List.length_cons,
      List.length_nil]
    omega

/-- C2: each telemetry channel is a fixed-capacity circular buffer — for
every sequence of appends into a freshly constructed channel, the
capacity stays the construction-time capacity, and the retained window is
exactly the last min(n, capacity) appended samples in insertion order
(so a full channel overwrites its oldest sample and chronological order
is preserved). -/
theorem ringbuffer_circular_retention (cap : ℕ) (vs : List GraphSim.Sample)
    (hpos : 0 < cap) :
    (pushAll (RingBuffer.empty GraphSim.Sample cap) vs).bufSize = cap ∧
    (pushAll (RingBuffer.empty GraphSim.Sample cap) vs).data
      = vs.drop (vs.length - cap) ∧
    (pushAll (RingBuffer.empty GraphSim.Sample cap) vs).data.length
      = min vs.length cap := by
  obtain ⟨h1, h2⟩ := pushAll_spec vs (RingBuffer.empty GraphSim.Sample cap)
    (by simp [RingBuffer.empty]) hpos
  have hbs : (RingBuffer.empty GraphSim.Sample cap).bufSize = cap := rfl
  have hdt : (RingBuffer.empty GraphSim.Sample cap).data = [] := rfl
  rw [hbs] at h1
  rw [hbs, hdt] at h2
  simp only [List.length_nil, List.nil_append, Nat.zero_add] at h2
  refine ⟨h1, h2, ?_⟩
  rw [h2]
  simp only [List.length_drop]
  omega

theorem ringbuffer_circular_retention_witness :
    0 < 2 ∧
    ((pushAll (RingBuffer.empty GraphSim.Sample 2) [⟨1, 1⟩, ⟨2, 2⟩, ⟨3, 3⟩]).bufSize = 2 ∧
     (pushAll (RingBuffer.empty GraphSim.Sample 2) [⟨1, 1⟩, ⟨2, 2⟩, ⟨3, 3⟩]).data
       = [(⟨1, 1⟩ : GraphSim.Sample), ⟨2, 2⟩, ⟨3, 3⟩].drop (3 - 2) ∧
     (pushAll (RingBuffer.empty GraphSim.Sample 2) [⟨1, 1⟩, ⟨2, 2⟩, ⟨3, 3⟩]).data.length
       = min 3 2) :=
  ⟨by decide, ringbuffer_circular_retention 2 [⟨1, 1⟩, ⟨2, 2⟩, ⟨3, 3⟩] (by decide)⟩

theorem drawLineSegs_fst (rb : RingBuffer GraphSim.Sample) (sv xs : ℚ) (c : GraphSim.Color) :
    ∀ (n : ℕ) (g : GraphSim.Graph), (drawLineSegs rb sv xs c g n).1 = g := by
  intro n
  induction n with
  | zero =>
    intro g
    simp only [drawLineSegs]
    split <;> rfl
  | succ n ih =>
    intro g
    simp only [drawLineSegs]
    split
    · rfl
    · simp [ih]

theorem renderChannel_fst (g : GraphSim.Graph) (i : ℕ) :
    (renderChannel g i).1 = g := by
  simp only [renderChannel]
  split
  · rfl
  · exact drawLineSegs_fst _ _ _ _ _ g

theorem renderChans_fst : ∀ (k : ℕ) (g : GraphSim.Graph) (i : ℕ),
    (renderChans g i k).1 = g := by
  intro k
  induction k with
  | zero => intro g i; rfl
  | succ k ih =>
    intro g i
    simp only [renderChans]
    rw [ih]
    exact renderChannel_fst g i

/-- C3: Graph::render performs no mutation — the state component it
returns is the whole Graph record unchanged (hence every channel's
retained samples, channel count, capacity, plot rectangle, maxVal, width
and height are identical), and this holds for any number of render calls
at any cadence. -/
theorem graph_render_no_mutation (g : GraphSim.Graph) :
    (GraphSim.Graph.render g).1 = g ∧
    ∀ n : ℕ, (fun h : GraphSim.Graph => (GraphSim.Graph.render h).1)^[n] g = g := by
  have key : ∀ h : GraphSim.Graph, (GraphSim.Graph.render h).1 = h := by
    intro h
    simp only [GraphSim.Graph.render]
    exact renderChans_fst _ _ _
  refine ⟨key g, ?_⟩
  intro n
  induction n with
  | zero => rfl
  | succ n ih => rw [Function.iterate_succ_apply', ih]; exact key g

/-- C9 counterexample: on the concrete Graph gSameX — built by the
constructor followed by two addVal calls recording two samples at the
same abscissa — channel 0 retains two samples yet the render divisor
xSpan (last retained X minus first retained X) is zero, refuting the
claim that xSpan is nonzero for every channel with at least two
samples. -/
theorem graph_xspan_zero_counterexample :
    (gSameX.buffers.getD 0 (RingBuffer.empty GraphSim.Sample 0)).getNumElements = 2 ∧
    chanXSpan (gSameX.buffers.getD 0 (RingBuffer.empty GraphSim.Sample 0)) = 0 := by
  have hbuf : gSameX.buffers = [⟨4, [⟨5, 1⟩, ⟨5, 2⟩]⟩] := rfl
  rw [hbuf]
  constructor
  · rfl
  · show (5 : ℚ) - 5 = 0
    norm_num

theorem chain_lt_getLast : ∀ (l : List GraphSim.Sample) (a : GraphSim.Sample),
    List.Chain (fun s t : GraphSim.Sample => s.x < t.x) a l → l ≠ [] →
    a.x < (l.getD (l.length - 1) ⟨0, 0⟩).x := by
  intro l
  induction l with
  | nil => intro a _ h; exact absurd rfl h
  | cons b rest ih =>
    intro a hch _
    rw [List.chain_cons] at hch
    obtain ⟨hab, hrest⟩ := hch
    by_cases hr : rest = []
    · subst hr; simpa using hab
    · have hpos : 1 ≤ rest.length := List.length_pos.mpr hr
      have hlen : (b :: rest).length - 1 = (rest.length - 1) + 1 := by
        simp only [List.length_cons]; omega
      rw [hlen, List.getD_cons_succ]
      exact lt_trans hab (ih b hrest hr)

/-- C9 amended: channels with fewer than two retained samples are skipped
entirely by Graph::render (they produce no line segments and do not reach
the division), and the divisor xSpan is nonzero — indeed positive —
whenever the channel's retained sample abscissas are strictly increasing
(as they are when samples are recorded at strictly increasing simulation
times); with equal first and last abscissas, however, xSpan is zero, so
the unconditional claim fails. -/
theorem graph_xspan_amended (g : GraphSim.Graph) (i : ℕ) (rb : RingBuffer GraphSim.Sample)
    (hchain : List.Chain' (fun s t : GraphSim.Sample => s.x < t.x) rb.data)
    (h2 : 2 ≤ rb.getNumElements) :
    0 < chanXSpan rb ∧
    ((g.buffers.getD i (RingBuffer.empty GraphSim.Sample 0)).getNumElements < 2 →
      renderChannel g i = (g, [])) := by
  constructor
  · obtain ⟨s, rest, hdata⟩ : ∃ s rest, rb.data = s :: rest := by
      cases hd : rb.data with
      | nil => rw [RingBuffer.getNumElements, hd] at h2; simp at h2
      | cons s rest => exact ⟨s, rest, rfl⟩
    have hch : List.Chain (fun s t : GraphSim.Sample => s.x < t.x) s rest := by
      rw [hdata] at hchain; exact hchain
    have hrest : rest ≠ [] := by
      intro hr
      rw [RingBuffer.getNumElements, hdata, hr] at h2
      simp at h2
    unfold chanXSpan RingBuffer.get RingBuffer.getNumElements
    rw [hdata]
    have hpos : 1 ≤ rest.length := List.length_pos.mpr hrest
    have hlen : (s :: rest).length - 1 = (rest.length - 1) + 1 := by
      simp only [List.length_cons]; omega
    rw [hlen, List.getD_cons_succ, List.getD_cons_zero]
    have := chain_lt_getLast rest s hch hrest
    linarith
  · intro hlt
    simp only [renderChannel]
    rw [if_pos hlt]

theorem graph_xspan_amended_witness :
    List.Chain' (fun s t : GraphSim.Sample => s.x < t.x)
      (RingBuffer.data ⟨4, [⟨1, 1⟩, ⟨2, 2⟩]⟩) ∧
    2 ≤ RingBuffer.getNumElements (⟨4, [⟨1, 1⟩, ⟨2, 2⟩]⟩ : RingBuffer GraphSim.Sample) ∧
    (0 < chanXSpan ⟨4, [⟨1, 1⟩, ⟨2, 2⟩]⟩ ∧
     ((gSameX.buffers.getD 3 (RingBuffer.empty GraphSim.Sample 0)).getNumElements < 2 →
       renderChannel gSameX 3 = (gSameX, []))) := by
  have hch : List.Chain' (fun s t : GraphSim.Sample => s.x < t.x)
      (RingBuffer.data ⟨4, [⟨1, 1⟩, ⟨2, 2⟩]⟩) := by
    simp only [List.chain'_cons, List.chain'_singleton, and_true]
    show (1 : ℚ) < 2
    norm_num
  exact ⟨hch, by norm_num [RingBuffer.getNumElements],
    graph_xspan_amended gSameX 3 ⟨4, [⟨1, 1⟩, ⟨2, 2⟩]⟩ hch
      (by norm_num [RingBuffer.getNumElements])⟩

theorem setChan_length : ∀ (l : List (RingBuffer GraphSim.Sample)) (b : ℕ) (v : GraphSim.Sample),
    (setChan l b v).length = l.length := by
  intro l
  induction l with
  | nil => intro b v; rfl
  | cons rb rest ih =>
    intro b v
    cases b with
    | zero => simp [setChan]
    | succ b => simp [setChan, ih]

theorem setChan_get?_ne : ∀ (l : List (RingBuffer GraphSim.Sample)) (b j : ℕ)
    (v : GraphSim.Sample), j ≠ b → (setChan l b v).get? j = l.get? j := by
  intro l
  induction l with
  | nil => intro b j v _; rfl
  | cons rb rest ih =>
    intro b j v hne
    cases b with
    | zero =>
      cases j with
      | zero => exact absurd rfl hne
      | succ j => simp [setChan]
    | succ b =>
      cases j with
      | zero => simp [setChan]
      | succ j =>
        simp only [setChan, List.get?_cons_succ]
        exact ih b j v (by omega)

theorem setChan_get?_eq : ∀ (l : List (RingBuffer GraphSim.Sample)) (b : ℕ)
    (v : GraphSim.Sample), b < l.length →
    (setChan l b v).get? b = (l.get? b).map (fun rb => rb.push v) := by
  intro l
  induction l with
  | nil => intro b v h; simp at h
  | cons rb rest ih =>
    intro b v hb
    cases b with
    | zero => simp [setChan]
    | succ b =>
      simp only [setChan, List.get?_cons_succ]
      exact ih b v (by simp only [List.length_cons] at hb; omega)

/-- C10: Graph::addVal touches only the addressed channel — for every
valid channel index b, addVal leaves the Graph configuration (pos,
caption, maxVal, width, height, bufSize, numBuffers) and every other
channel's retained samples unchanged, and appends exactly to channel b. -/
theorem graph_addVal_channel_isolation (g : GraphSim.Graph) (b : ℕ) (v : GraphSim.Sample)
    (hb : b < g.buffers.length) :
    ((g.addVal b v).pos = g.pos ∧ (g.addVal b v).caption = g.caption ∧
     (g.addVal b v).maxVal = g.maxVal ∧ (g.addVal b v).width = g.width ∧
     (g.addVal b v).height = g.height ∧ (g.addVal b v).bufSize = g.bufSize ∧
     (g.addVal b v).numBuffers = g.numBuffers ∧
     (g.addVal b v).buffers.length = g.buffers.length) ∧
    (∀ j, j ≠ b → (g.addVal b v).buffers.get? j = g.buffers.get? j) ∧
    (g.addVal b v).buffers.get? b = (g.buffers.get? b).map (fun rb => rb.push v) := by
  refine ⟨⟨rfl, rfl, rfl, rfl, rfl, rfl, rfl, setChan_length g.buffers b v⟩, ?_, ?_⟩
  · intro j hj
    exact setChan_get?_ne g.buffers b j v hj
  · exact setChan_get?_eq g.buffers b v hb

theorem graph_addVal_channel_isolation_witness :
    0 < (GraphSim.Graph.make "w" ⟨0, 0, 10, 10⟩ 5 2 3).buffers.length ∧
    ((((GraphSim.Graph.make "w" ⟨0, 0, 10, 10⟩ 5 2 3).addVal 0 ⟨1, 1⟩).pos
        = (GraphSim.Graph.make "w" ⟨0, 0, 10, 10⟩ 5 2 3).pos ∧
      (((GraphSim.Graph.make "w" ⟨0, 0, 10, 10⟩ 5 2 3).addVal 0 ⟨1, 1⟩).caption
        = (GraphSim.Graph.make "w" ⟨0, 0, 10, 10⟩ 5 2 3).caption) ∧
      (((GraphSim.Graph.make "w" ⟨0, 0, 10, 10⟩ 5 2 3).addVal 0 ⟨1, 1⟩).maxVal
        = (GraphSim.Graph.make "w" ⟨0, 0, 10, 10⟩ 5 2 3).maxVal) ∧
      (((GraphSim.Graph.make "w" ⟨0, 0, 10, 10⟩ 5 2 3).addVal 0 ⟨1, 1⟩).width
        = (GraphSim.Graph.make "w" ⟨0, 0, 10, 10⟩ 5 2 3).width) ∧
      (((GraphSim.Graph.make "w" ⟨0, 0, 10, 10⟩ 5 2 3).addVal 0 ⟨1, 1⟩).height
        = (GraphSim.Graph.make "w" ⟨0, 0, 10, 10⟩ 5 2 3).height) ∧
      (((GraphSim.Graph.make "w" ⟨0, 0, 10, 10⟩ 5 2 3).addVal 0 ⟨1, 1⟩).bufSize
        = (GraphSim.Graph.make "w" ⟨0, 0, 10, 10⟩ 5 2 3).bufSize) ∧
      (((GraphSim.Graph.make "w" ⟨0, 0, 10, 10⟩ 5 2 3).addVal 0 ⟨1, 1⟩).numBuffers
        = (GraphSim.Graph.make "w" ⟨0, 0, 10, 10⟩ 5 2 3).numBuffers) ∧
      (((GraphSim.Graph.make "w" ⟨0, 0, 10, 10⟩ 5 2 3).addVal 0 ⟨1, 1⟩).buffers.length
        = (GraphSim.Graph.make "w" ⟨0, 0, 10, 10⟩ 5 2 3).buffers.length)) ∧
     (((GraphSim.Graph.make "w" ⟨0, 0, 10, 10⟩ 5 2 3).addVal 0 ⟨1, 1⟩).buffers.get? 1
         = (GraphSim.Graph.make "w" ⟨0, 0, 10, 10⟩ 5 2 3).buffers.get? 1) ∧
     ((GraphSim.Graph.make "w" ⟨0, 0, 10, 10⟩ 5 2 3).addVal 0 ⟨1, 1⟩).buffers.get? 0
       = ((GraphSim.Graph.make "w" ⟨0, 0, 10, 10⟩ 5 2 3).buffers.get? 0).map
           (fun rb => rb.push ⟨1, 1⟩)) :=
  ⟨by simp [GraphSim.Graph.make],
   (graph_addVal_channel_isolation (GraphSim.Graph.make "w" ⟨0, 0, 10, 10⟩ 5 2 3) 0 ⟨1, 1⟩
     (by simp [GraphSim.Graph.make])).1,
   (graph_addVal_channel_isolation (GraphSim.Graph.make "w" ⟨0, 0, 10, 10⟩ 5 2 3) 0 ⟨1, 1⟩
     (by simp [GraphSim.Graph.make])).2.1 1 (by norm_num),
   (graph_addVal_channel_isolation (GraphSim.Graph.make "w" ⟨0, 0, 10, 10⟩ 5 2 3) 0 ⟨1, 1⟩
     (by simp [GraphSim.Graph.make])).2.2⟩

/-- C1: within one Quadrotor.update(dt) call, the controller output is
computed from the pre-call state, fed to the mixer, whose output is
installed as the four commanded speeds, and only then does the integrator
run on exactly those motors — the whole update equals that composition,
and the commanded speeds the integrator consumed (still visible after the
call, since motor stepping never touches them) are exactly the clamped
mixer output of this same call's controller output, never stale values. -/
theorem update_pipeline_order (q : Quadrotor) (target : RigidBodyState) (dt : ℚ) :
    Quadrotor.update q target dt
      = integratorStep dt
          { q with motors := (setCommands q.params q.motors
              (mix q.params (controller q.params q.state target).1
                (controller q.params q.state target).2)) } ∧
    commandedSpeeds (Quadrotor.update q target dt).motors
      = ⟨clampQ (mix q.params (controller q.params q.state target).1
            (controller q.params q.state target).2).c1 0 q.params.maxSpeed,
         clampQ (mix q.params (controller q.params q.state target).1
            (controller q.params q.state target).2).c2 0 q.params.maxSpeed,
         clampQ (mix q.params (controller q.params q.state target).1
            (controller q.params q.state target).2).c3 0 q.params.maxSpeed,
         clampQ (mix q.params (controller q.params q.state target).1
            (controller q.params q.state target).2).c4 0 q.params.maxSpeed⟩ :=
  ⟨rfl, rfl⟩

theorem motor_step_commanded (p : Params) (dt : ℚ) (m : Motor) :
    (m.step p dt).commandedSpeed = m.commandedSpeed := rfl

theorem motor_step_toward (p : Params) (dt : ℚ) (m : Motor) (h : 0 ≤ p.maxRate * dt) :
    (m.actualSpeed ≤ m.commandedSpeed →
      m.actualSpeed ≤ (m.step p dt).actualSpeed ∧
      (m.step p dt).actualSpeed ≤ m.commandedSpeed) ∧
    (m.commandedSpeed ≤ m.actualSpeed →
      (m.step p dt).actualSpeed ≤ m.actualSpeed ∧
      m.commandedSpeed ≤ (m.step p dt).actualSpeed) := by
  simp only [Motor.step, clampQ]
  refine ⟨fun h1 => ⟨?_, ?_⟩, fun h1 => ⟨?_, ?_⟩⟩
  · have hB : 0 ≤ min (m.commandedSpeed - m.actualSpeed) (p.maxRate * dt) :=
      le_min (by linarith) h
    have hA := le_max_right (-(p.maxRate * dt))
      (min (m.commandedSpeed - m.actualSpeed) (p.maxRate * dt))
    linarith
  · have hC : max (-(p.maxRate * dt))
        (min (m.commandedSpeed - m.actualSpeed) (p.maxRate * dt))
        ≤ m.commandedSpeed - m.actualSpeed :=
      max_le (by linarith) (min_le_left _ _)
    linarith
  · have hC : max (-(p.maxRate * dt))
        (min (m.commandedSpeed - m.actualSpeed) (p.maxRate * dt)) ≤ 0 :=
      max_le (by linarith) (le_trans (min_le_left _ _) (by linarith))
    linarith
  · have hmin : min (m.commandedSpeed - m.actualSpeed) (p.maxRate * dt)
        = m.commandedSpeed - m.actualSpeed := min_eq_left (by linarith)
    have hA := le_max_right (-(p.maxRate * dt))
      (min (m.commandedSpeed - m.actualSpeed) (p.maxRate * dt))
    linarith [hA, hmin]

/-- C4: with a constant commanded speed, the sequence of actual speeds
produced by repeated Motor.step(dt) calls is monotone toward the
commanded speed and never crosses it — for every positive dt, every
nonnegative rate bound and every starting speed: the commanded speed is
unchanged by stepping, and from either side the next actual speed moves
toward the commanded value without overshooting it. -/
theorem motor_monotone_no_overshoot (p : Params) (dt : ℚ) (m : Motor)
    (hdt : 0 < dt) (hr : 0 ≤ p.maxRate) :
    ∀ n : ℕ,
      ((Motor.step p dt)^[n] m).commandedSpeed = m.commandedSpeed ∧
      (((Motor.step p dt)^[n] m).actualSpeed ≤ m.commandedSpeed →
        ((Motor.step p dt)^[n] m).actualSpeed ≤ ((Motor.step p dt)^[n + 1] m).actualSpeed ∧
        ((Motor.step p dt)^[n + 1] m).actualSpeed ≤ m.commandedSpeed) ∧
      (m.commandedSpeed ≤ ((Motor.step p dt)^[n] m).actualSpeed →
        ((Motor.step p dt)^[n + 1] m).actualSpeed ≤ ((Motor.step p dt)^[n] m).actualSpeed ∧
        m.commandedSpeed ≤ ((Motor.step p dt)^[n + 1] m).actualSpeed) := by
  have hcmd : ∀ k : ℕ, ((Motor.step p dt)^[k] m).commandedSpeed = m.commandedSpeed := by
    intro k
    induction k with
    | zero => rfl
    | succ k ih => rw [Function.iterate_succ_apply', motor_step_commanded, ih]
  intro n
  have hrd : 0 ≤ p.maxRate * dt := mul_nonneg hr hdt.le
  have hstep := motor_step_toward p dt ((Motor.step p dt)^[n] m) hrd
  rw [hcmd n] at hstep
  rw [Function.iterate_succ_apply']
  exact ⟨hcmd n, hstep.1, hstep.2⟩

theorem motor_monotone_no_overshoot_witness :
    0 < (1 : ℚ) ∧ 0 ≤ (⟨1, 1, 1, 1, 10, 100, 3, 1, 1, 1⟩ : Params).maxRate ∧
    (((Motor.step ⟨1, 1, 1, 1, 10, 100, 3, 1, 1, 1⟩ 1)^[2] (⟨0, 5⟩ : Motor)).commandedSpeed
        = (⟨0, 5⟩ : Motor).commandedSpeed ∧
      (((Motor.step ⟨1, 1, 1, 1, 10, 100, 3, 1, 1, 1⟩ 1)^[2] (⟨0, 5⟩ : Motor)).actualSpeed
          ≤ (⟨0, 5⟩ : Motor).commandedSpeed →
        ((Motor.step ⟨1, 1, 1, 1, 10, 100, 3, 1, 1, 1⟩ 1)^[2] (⟨0, 5⟩ : Motor)).actualSpeed
          ≤ ((Motor.step ⟨1, 1, 1, 1, 10, 100, 3, 1, 1, 1⟩ 1)^[2 + 1] (⟨0, 5⟩ : Motor)).actualSpeed ∧
        ((Motor.step ⟨1, 1, 1, 1, 10, 100, 3, 1, 1, 1⟩ 1)^[2 + 1] (⟨0, 5⟩ : Motor)).actualSpeed
          ≤ (⟨0, 5⟩ : Motor).commandedSpeed) ∧
      ((⟨0, 5⟩ : Motor).commandedSpeed
          ≤ ((Motor.step ⟨1, 1, 1, 1, 10, 100, 3, 1, 1, 1⟩ 1)^[2] (⟨0, 5⟩ : Motor)).actualSpeed →
        ((Motor.step ⟨1, 1, 1, 1, 10, 100, 3, 1, 1, 1⟩ 1)^[2 + 1] (⟨0, 5⟩ : Motor)).actualSpeed
          ≤ ((Motor.step ⟨1, 1, 1, 1, 10, 100, 3, 1, 1, 1⟩ 1)^[2] (⟨0, 5⟩ : Motor)).actualSpeed ∧
        (⟨0, 5⟩ : Motor).commandedSpeed
          ≤ ((Motor.step ⟨1, 1, 1, 1, 10, 100, 3, 1, 1, 1⟩ 1)^[2 + 1] (⟨0, 5⟩ : Motor)).actualSpeed)) :=
  ⟨by norm_num, by show (0 : ℚ) ≤ 3; norm_num,
   motor_monotone_no_overshoot ⟨1, 1, 1, 1, 10, 100, 3, 1, 1, 1⟩ 1 ⟨0, 5⟩
     (by norm_num) (by show (0 : ℚ) ≤ 3; norm_num) 2⟩

/-- C5: mixer round trip — for every desired (thrust, torque) whose
unsaturated allocation lies within the actuator limits, mix applies no
saturation, and netForceTorque applied to the four commanded speeds (the
speeds motors settle to) reproduces the original (thrust, torque)
exactly, hence within any numerical tolerance. -/
theorem mixer_roundtrip (p : Params) (t : ℚ) (tau : Vec3)
    (hkf : p.kf ≠ 0) (hL : p.armLen ≠ 0) (hkt : p.kt ≠ 0)
    (hin : cmdInRange p (mixRaw p t tau)) :
    mix p t tau = mixRaw p t tau ∧
    netForceTorque p (mix p t tau) = (t, tau) := by
  obtain ⟨tx, ty, tz⟩ := tau
  have hM : ¬ p.maxSpeed < (mixRaw p t ⟨tx, ty, tz⟩).maxCmd := by
    obtain ⟨_, h1, _, h2, _, h3, _, h4⟩ := hin
    exact not_lt.mpr (max_le (max_le h1 h2) (max_le h3 h4))
  have hmix : mix p t ⟨tx, ty, tz⟩ = mixRaw p t ⟨tx, ty, tz⟩ := by
    simp only [mix]; rw [if_neg hM]
  refine ⟨hmix, ?_⟩
  rw [hmix]
  simp only [netForceTorque, mixRaw, Prod.mk.injEq, Vec3.mk.injEq]
  refine ⟨?_, ?_, ?_, ?_⟩ <;> field_simp <;> ring

theorem mixer_roundtrip_witness :
    ((⟨1, 1, 1, 1, 10, 100, 3, 1, 1, 1⟩ : Params).kf ≠ 0 ∧
     (⟨1, 1, 1, 1, 10, 100, 3, 1, 1, 1⟩ : Params).armLen ≠ 0 ∧
     (⟨1, 1, 1, 1, 10, 100, 3, 1, 1, 1⟩ : Params).kt ≠ 0 ∧
     cmdInRange ⟨1, 1, 1, 1, 10, 100, 3, 1, 1, 1⟩
       (mixRaw ⟨1, 1, 1, 1, 10, 100, 3, 1, 1, 1⟩ 8 ⟨1, 1, 1⟩)) ∧
    (mix ⟨1, 1, 1, 1, 10, 100, 3, 1, 1, 1⟩ 8 ⟨1, 1, 1⟩
       = mixRaw ⟨1, 1, 1, 1, 10, 100, 3, 1, 1, 1⟩ 8 ⟨1, 1, 1⟩ ∧
     netForceTorque ⟨1, 1, 1, 1, 10, 100, 3, 1, 1, 1⟩
       (mix ⟨1, 1, 1, 1, 10, 100, 3, 1, 1, 1⟩ 8 ⟨1, 1, 1⟩) = (8, ⟨1, 1, 1⟩)) := by
  have hkf : (⟨1, 1, 1, 1, 10, 100, 3, 1, 1, 1⟩ : Params).kf ≠ 0 := by
    show (1 : ℚ) ≠ 0; norm_num
  have hL : (⟨1, 1, 1, 1, 10, 100, 3, 1, 1, 1⟩ : Params).armLen ≠ 0 := by
    show (1 : ℚ) ≠ 0; norm_num
  have hkt : (⟨1, 1, 1, 1, 10, 100, 3, 1, 1, 1⟩ : Params).kt ≠ 0 := by
    show (1 : ℚ) ≠ 0; norm_num
  have hin : cmdInRange ⟨1, 1, 1, 1, 10, 100, 3, 1, 1, 1⟩
      (mixRaw ⟨1, 1, 1, 1, 10, 100, 3, 1, 1, 1⟩ 8 ⟨1, 1, 1⟩) := by
    refine ⟨?_, ?_, ?_, ?_, ?_, ?_, ?_, ?_⟩ <;> norm_num [mixRaw, cmdInRange]
  exact ⟨⟨hkf, hL, hkt, hin⟩,
    mixer_roundtrip ⟨1, 1, 1, 1, 10, 100, 3, 1, 1, 1⟩ 8 ⟨1, 1, 1⟩ hkf hL hkt hin⟩

/-- C6: saturation policy of mix — for every input, the four outputs are
one common scalar multiple of the unsaturated allocation, so all pairwise
ratios are preserved (stated as cross products, valid also at zeros);
when the unsaturated allocation is within bounds the factor is one, and
when its largest entry exceeds maxSpeed the common factor is exactly
maxSpeed / maxCmd rather than any independent clamping. -/
theorem mix_common_scale (p : Params) (t : ℚ) (tau : Vec3) :
    ((mix p t tau).c1 * (mixRaw p t tau).c2 = (mix p t tau).c2 * (mixRaw p t tau).c1 ∧
     (mix p t tau).c1 * (mixRaw p t tau).c3 = (mix p t tau).c3 * (mixRaw p t tau).c1 ∧
     (mix p t tau).c1 * (mixRaw p t tau).c4 = (mix p t tau).c4 * (mixRaw p t tau).c1 ∧
     (mix p t tau).c2 * (mixRaw p t tau).c3 = (mix p t tau).c3 * (mixRaw p t tau).c2 ∧
     (mix p t tau).c2 * (mixRaw p t tau).c4 = (mix p t tau).c4 * (mixRaw p t tau).c2 ∧
     (mix p t tau).c3 * (mixRaw p t tau).c4 = (mix p t tau).c4 * (mixRaw p t tau).c3) ∧
    (cmdInRange p (mixRaw p t tau) → mix p t tau = mixRaw p t tau) ∧
    (p.maxSpeed < (mixRaw p t tau).maxCmd →
      mix p t tau = (mixRaw p t tau).scale (p.maxSpeed / (mixRaw p t tau).maxCmd)) := by
  by_cases h : p.maxSpeed < (mixRaw p t tau).maxCmd
  · have hmix : mix p t tau = (mixRaw p t tau).scale (p.maxSpeed / (mixRaw p t tau).maxCmd) := by
      simp only [mix]; rw [if_pos h]
    refine ⟨?_, ?_, fun _ => hmix⟩
    · rw [hmix]
      simp only [Cmd4.scale]
      exact ⟨by ring, by ring, by ring, by ring, by ring, by ring⟩
    · intro hin
      obtain ⟨_, h1, _, h2, _, h3, _, h4⟩ := hin
      have hle : (mixRaw p t tau).maxCmd ≤ p.maxSpeed :=
        max_le (max_le h1 h2) (max_le h3 h4)
      exact absurd h (not_lt.mpr hle)
  · have hmix : mix p t tau = mixRaw p t tau := by
      simp only [mix]; rw [if_neg h]
    refine ⟨?_, fun _ => hmix, fun hc => absurd hc h⟩
    rw [hmix]
    exact ⟨mul_comm _ _, mul_comm _ _, mul_comm _ _, mul_comm _ _, mul_comm _ _, mul_comm _ _⟩

theorem mix_common_scale_witness :
    ((mix ⟨1, 1, 1, 1, 10, 100, 3, 1, 1, 1⟩ 800 ⟨0, 0, 0⟩).c1
       * (mixRaw ⟨1, 1, 1, 1, 10, 100, 3, 1, 1, 1⟩ 800 ⟨0, 0, 0⟩).c2
     = (mix ⟨1, 1, 1, 1, 10, 100, 3, 1, 1, 1⟩ 800 ⟨0, 0, 0⟩).c2
       * (mixRaw ⟨1, 1, 1, 1, 10, 100, 3, 1, 1, 1⟩ 800 ⟨0, 0, 0⟩).c1 ∧
     (mix ⟨1, 1, 1, 1, 10, 100, 3, 1, 1, 1⟩ 800 ⟨0, 0, 0⟩).c1
       * (mixRaw ⟨1, 1, 1, 1, 10, 100, 3, 1, 1, 1⟩ 800 ⟨0, 0, 0⟩).c3
     = (mix ⟨1, 1, 1, 1, 10, 100, 3, 1, 1, 1⟩ 800 ⟨0, 0, 0⟩).c3
       * (mixRaw ⟨1, 1, 1, 1, 10, 100, 3, 1, 1, 1⟩ 800 ⟨0, 0, 0⟩).c1 ∧
     (mix ⟨1, 1, 1, 1, 10, 100, 3, 1, 1, 1⟩ 800 ⟨0, 0, 0⟩).c1
       * (mixRaw ⟨1, 1, 1, 1, 10, 100, 3, 1, 1, 1⟩ 800 ⟨0, 0, 0⟩).c4
     = (mix ⟨1, 1, 1, 1, 10, 100, 3, 1, 1, 1⟩ 800 ⟨0, 0, 0⟩).c4
       * (mixRaw ⟨1, 1, 1, 1, 10, 100, 3, 1, 1, 1⟩ 800 ⟨0, 0, 0⟩).c1 ∧
     (mix ⟨1, 1, 1, 1, 10, 100, 3, 1, 1, 1⟩ 800 ⟨0, 0, 0⟩).c2
       * (mixRaw ⟨1, 1, 1, 1, 10, 100, 3, 1, 1, 1⟩ 800 ⟨0, 0, 0⟩).c3
     = (mix ⟨1, 1, 1, 1, 10, 100, 3, 1, 1, 1⟩ 800 ⟨0, 0, 0⟩).c3
       * (mixRaw ⟨1, 1, 1, 1, 10, 100, 3, 1, 1, 1⟩ 800 ⟨0, 0, 0⟩).c2 ∧
     (mix ⟨1, 1, 1, 1, 10, 100, 3, 1, 1, 1⟩ 800 ⟨0, 0, 0⟩).c2
       * (mixRaw ⟨1, 1, 1, 1, 10, 100, 3, 1, 1, 1⟩ 800 ⟨0, 0, 0⟩).c4
     = (mix ⟨1, 1, 1, 1, 10, 100, 3, 1, 1, 1⟩ 800 ⟨0, 0, 0⟩).c4
       * (mixRaw ⟨1, 1, 1, 1, 10, 100, 3, 1, 1, 1⟩ 800 ⟨0, 0, 0⟩).c2 ∧
     (mix ⟨1, 1, 1, 1, 10, 100, 3, 1, 1, 1⟩ 800 ⟨0, 0, 0⟩).c3
       * (mixRaw ⟨1, 1, 1, 1, 10, 100, 3, 1, 1, 1⟩ 800 ⟨0, 0, 0⟩).c4
     = (mix ⟨1, 1, 1, 1, 10, 100, 3, 1, 1, 1⟩ 800 ⟨0, 0, 0⟩).c4
       * (mixRaw ⟨1, 1, 1, 1, 10, 100, 3, 1, 1, 1⟩ 800 ⟨0, 0, 0⟩).c3) ∧
    (cmdInRange ⟨1, 1, 1, 1, 10, 100, 3, 1, 1, 1⟩
       (mixRaw ⟨1, 1, 1, 1, 10, 100, 3, 1, 1, 1⟩ 800 ⟨0, 0, 0⟩) →
      mix ⟨1, 1, 1, 1, 10, 100, 3, 1, 1, 1⟩ 800 ⟨0, 0, 0⟩
        = mixRaw ⟨1, 1, 1, 1, 10, 100, 3, 1, 1, 1⟩ 800 ⟨0, 0, 0⟩) ∧
    ((⟨1, 1, 1, 1, 10, 100, 3, 1, 1, 1⟩ : Params).maxSpeed
        < (mixRaw ⟨1, 1, 1, 1, 10, 100, 3, 1, 1, 1⟩ 800 ⟨0, 0, 0⟩).maxCmd →
      mix ⟨1, 1, 1, 1, 10, 100, 3, 1, 1, 1⟩ 800 ⟨0, 0, 0⟩
        = (mixRaw ⟨1, 1, 1, 1, 10, 100, 3, 1, 1, 1⟩ 800 ⟨0, 0, 0⟩).scale
            ((⟨1, 1, 1, 1, 10, 100, 3, 1, 1, 1⟩ : Params).maxSpeed
              / (mixRaw ⟨1, 1, 1, 1, 10, 100, 3, 1, 1, 1⟩ 800 ⟨0, 0, 0⟩).maxCmd)) :=
  mix_common_scale ⟨1, 1, 1, 1, 10, 100, 3, 1, 1, 1⟩ 800 ⟨0, 0, 0⟩

/-- C7: precondition violations are rejected before any state change —
invalid physical parameters make construction fail, a negative dt makes
the checked update fail, and an out-of-range direct motor-speed override
makes the checked override fail; in each failing case no new simulation
state is produced and the caller's state is exactly the state before the
call. -/
theorem precondition_rejection (p : Params) (st0 : RigidBodyState)
    (q : Quadrotor) (target : RigidBodyState) (dt : ℚ) (c : Cmd4)
    (hp : ¬ validParams p) (hdt : ¬ validDt dt) (hc : ¬ cmdInRange q.params c) :
    mkQuadrotor p st0 = none ∧
    updateChecked q target dt = none ∧ (updateChecked q target dt).getD q = q ∧
    setMotorSpeedChecked q c = none ∧ (setMotorSpeedChecked q c).getD q = q := by
  have h1 : mkQuadrotor p st0 = none := by
    simp only [mkQuadrotor]; rw [if_neg hp]
  have h2 : updateChecked q target dt = none := by
    simp only [updateChecked]; rw [if_neg hdt]
  have h3 : setMotorSpeedChecked q c = none := by
    simp only [setMotorSpeedChecked]; rw [if_neg hc]
  exact ⟨h1, h2, by rw [h2]; rfl, h3, by rw [h3]; rfl⟩

theorem precondition_rejection_witness :
    ¬ validParams ⟨-1, 1, 1, 1, 10, 100, 3, 1, 1, 1⟩ ∧
    ¬ validDt (-1) ∧
    ¬ cmdInRange (Quadrotor.params ⟨⟨1, 1, 1, 1, 10, 100, 3, 1, 1, 1⟩,
        ⟨⟨0, 0, 0⟩, ⟨0, 0, 0⟩, ⟨0, 0, 0⟩, ⟨0, 0, 0⟩⟩,
        ⟨⟨0, 0⟩, ⟨0, 0⟩, ⟨0, 0⟩, ⟨0, 0⟩⟩⟩) ⟨-1, 0, 0, 0⟩ ∧
    (mkQuadrotor ⟨-1, 1, 1, 1, 10, 100, 3, 1, 1, 1⟩
        ⟨⟨0, 0, 0⟩, ⟨0, 0, 0⟩, ⟨0, 0, 0⟩, ⟨0, 0, 0⟩⟩ = none ∧
     updateChecked ⟨⟨1, 1, 1, 1, 10, 100, 3, 1, 1, 1⟩,
        ⟨⟨0, 0, 0⟩, ⟨0, 0, 0⟩, ⟨0, 0, 0⟩, ⟨0, 0, 0⟩⟩,
        ⟨⟨0, 0⟩, ⟨0, 0⟩, ⟨0, 0⟩, ⟨0, 0⟩⟩⟩
       ⟨⟨0, 0, 0⟩, ⟨0, 0, 0⟩, ⟨0, 0, 0⟩, ⟨0, 0, 0⟩⟩ (-1) = none ∧
     (updateChecked ⟨⟨1, 1, 1, 1, 10, 100, 3, 1, 1, 1⟩,
        ⟨⟨0, 0, 0⟩, ⟨0, 0, 0⟩, ⟨0, 0, 0⟩, ⟨0, 0, 0⟩⟩,
        ⟨⟨0, 0⟩, ⟨0, 0⟩, ⟨0, 0⟩, ⟨0, 0⟩⟩⟩
       ⟨⟨0, 0, 0⟩, ⟨0, 0, 0⟩, ⟨0, 0, 0⟩, ⟨0, 0, 0⟩⟩ (-1)).getD
         ⟨⟨1, 1, 1, 1, 10, 100, 3, 1, 1, 1⟩,
        ⟨⟨0, 0, 0⟩, ⟨0, 0, 0⟩, ⟨0, 0, 0⟩, ⟨0, 0, 0⟩⟩,
        ⟨⟨0, 0⟩, ⟨0, 0⟩, ⟨0, 0⟩, ⟨0, 0⟩⟩⟩
       = ⟨⟨1, 1, 1, 1, 10, 100, 3, 1, 1, 1⟩,
        ⟨⟨0, 0, 0⟩, ⟨0, 0, 0⟩, ⟨0, 0, 0⟩, ⟨0, 0, 0⟩⟩,
        ⟨⟨0, 0⟩, ⟨0, 0⟩, ⟨0, 0⟩, ⟨0, 0⟩⟩⟩ ∧
     setMotorSpeedChecked ⟨⟨1, 1, 1, 1, 10, 100, 3, 1, 1, 1⟩,
        ⟨⟨0, 0, 0⟩, ⟨0, 0, 0⟩, ⟨0, 0, 0⟩, ⟨0, 0, 0⟩⟩,
        ⟨⟨0, 0⟩, ⟨0, 0⟩, ⟨0, 0⟩, ⟨0, 0⟩⟩⟩ ⟨-1, 0, 0, 0⟩ = none ∧
     (setMotorSpeedChecked ⟨⟨1, 1, 1, 1, 10, 100, 3, 1, 1, 1⟩,
        ⟨⟨0, 0, 0⟩, ⟨0, 0, 0⟩, ⟨0, 0, 0⟩, ⟨0, 0, 0⟩⟩,
        ⟨⟨0, 0⟩, ⟨0, 0⟩, ⟨0, 0⟩, ⟨0, 0⟩⟩⟩ ⟨-1, 0, 0, 0⟩).getD
         ⟨⟨1, 1, 1, 1, 10, 100, 3, 1, 1, 1⟩,
        ⟨⟨0, 0, 0⟩, ⟨0, 0, 0⟩, ⟨0, 0, 0⟩, ⟨0, 0, 0⟩⟩,
        ⟨⟨0, 0⟩, ⟨0, 0⟩, ⟨0, 0⟩, ⟨0, 0⟩⟩⟩
       = ⟨⟨1, 1, 1, 1, 10, 100, 3, 1, 1, 1⟩,
        ⟨⟨0, 0, 0⟩, ⟨0, 0, 0⟩, ⟨0, 0, 0⟩, ⟨0, 0, 0⟩⟩,
        ⟨⟨0, 0⟩, ⟨0, 0⟩, ⟨0, 0⟩, ⟨0, 0⟩⟩⟩) := by
  have hp : ¬ validParams ⟨-1, 1, 1, 1, 10, 100, 3, 1, 1, 1⟩ := by
    intro h
    exact absurd h.1 (by show ¬ (0 : ℚ) < -1; norm_num)
  have hdt : ¬ validDt (-1) := by
    show ¬ (0 : ℚ) ≤ -1; norm_num
  have hc : ¬ cmdInRange (Quadrotor.params ⟨⟨1, 1, 1, 1, 10, 100, 3, 1, 1, 1⟩,
      ⟨⟨0, 0, 0⟩, ⟨0, 0, 0⟩, ⟨0, 0, 0⟩, ⟨0, 0, 0⟩⟩,
      ⟨⟨0, 0⟩, ⟨0, 0⟩, ⟨0, 0⟩, ⟨0, 0⟩⟩⟩) ⟨-1, 0, 0, 0⟩ := by
    intro h
    exact absurd h.1 (by show ¬ (0 : ℚ) ≤ -1; norm_num)
  exact ⟨hp, hdt, hc,
    precondition_rejection ⟨-1, 1, 1, 1, 10, 100, 3, 1, 1, 1⟩
      ⟨⟨0, 0, 0⟩, ⟨0, 0, 0⟩, ⟨0, 0, 0⟩, ⟨0, 0, 0⟩⟩
      ⟨⟨1, 1, 1, 1, 10, 100, 3, 1, 1, 1⟩,
        ⟨⟨0, 0, 0⟩, ⟨0, 0, 0⟩, ⟨0, 0, 0⟩, ⟨0, 0, 0⟩⟩,
        ⟨⟨0, 0⟩, ⟨0, 0⟩, ⟨0, 0⟩, ⟨0, 0⟩⟩⟩
      ⟨⟨0, 0, 0⟩, ⟨0, 0, 0⟩, ⟨0, 0, 0⟩, ⟨0, 0, 0⟩⟩ (-1) ⟨-1, 0, 0, 0⟩ hp hdt hc⟩

theorem qnormalize_norm (q : Quaternion ℝ) (hq : q ≠ 0) : ‖qnormalize q‖ = 1 := by
  simp only [qnormalize]
  rw [norm_smul, norm_inv, norm_norm]
  exact inv_mul_cancel₀ (norm_ne_zero_iff.mpr hq)

theorem orientStep_norm (dt : ℝ) (w q : Quaternion ℝ)
    (hq : ‖q‖ = 1) (hw : |dt / 2| * ‖w‖ < 1) :
    ‖orientStep dt w q‖ = 1 := by
  have hpert : ‖(dt / 2) • (q * w)‖ < 1 := by
    rw [norm_smul, norm_mul, hq, one_mul, Real.norm_eq_abs]
    exact hw
  have hne : q + (dt / 2) • (q * w) ≠ 0 := by
    intro h0
    have hqe : q = -((dt / 2) • (q * w)) := eq_neg_of_add_eq_zero_left h0
    have hq2 : ‖q‖ = ‖(dt / 2) • (q * w)‖ := by
      conv_lhs => rw [hqe]
      rw [norm_neg]
    rw [hq] at hq2
    linarith
  exact qnormalize_norm _ hne

/-- C8: orientation validity — starting from a unit orientation
quaternion, every integration step (quaternion-derivative update followed
by the renormalization the integrator performs each step) leaves the
orientation exactly unit-norm, hence after every finite number of steps
(10,000 included) the quaternion norm is within 1e-6 of unity; the
smallness hypothesis |dt/2|*‖ω‖ < 1 holds comfortably at dt = 16 ms for
any physical angular velocity. -/
theorem orientation_unit_norm (dt : ℝ) (w : Quaternion ℝ) (q0 : Quaternion ℝ)
    (hq0 : ‖q0‖ = 1) (hw : |dt / 2| * ‖w‖ < 1) :
    ∀ n : ℕ, ‖orientIter dt w n q0‖ = 1 ∧
      |‖orientIter dt w n q0‖ - 1| ≤ 1 / 1000000 := by
  have key : ∀ n : ℕ, ‖orientIter dt w n q0‖ = 1 := by
    intro n
    induction n with
    | zero => exact hq0
    | succ n ih =>
      simp only [orientIter] at ih ⊢
      rw [Function.iterate_succ_apply']
      exact orientStep_norm dt w _ ih hw
  intro n
  refine ⟨key n, ?_⟩
  rw [key n]
  norm_num

theorem orientation_unit_norm_witness :
    ‖(1 : Quaternion ℝ)‖ = 1 ∧
    |(4 / 250 : ℝ) / 2| * ‖(Quaternion.equivTuple ℝ).symm ![0, 1, 0, 0]‖ < 1 ∧
    (‖orientIter (4 / 250) ((Quaternion.equivTuple ℝ).symm ![0, 1, 0, 0]) 10000
        (1 : Quaternion ℝ)‖ = 1 ∧
     |‖orientIter (4 / 250) ((Quaternion.equivTuple ℝ).symm ![0, 1, 0, 0]) 10000
        (1 : Quaternion ℝ)‖ - 1| ≤ 1 / 1000000) := by
  have hq0 : ‖(1 : Quaternion ℝ)‖ = 1 := norm_one
  have hnsq : Quaternion.normSq ((Quaternion.equivTuple ℝ).symm ![0, 1, 0, 0]) = 1 := by
    rw [Quaternion.normSq_def']
    show (0 : ℝ) ^ 2 + 1 ^ 2 + 0 ^ 2 + 0 ^ 2 = 1
    norm_num
  have hnorm : ‖(Quaternion.equivTuple ℝ).symm ![0, 1, 0, 0]‖ = 1 := by
    have h2 : ‖(Quaternion.equivTuple ℝ).symm ![0, 1, 0, 0]‖
        * ‖(Quaternion.equivTuple ℝ).symm ![0, 1, 0, 0]‖ = 1 := by
      rw [← Quaternion.normSq_eq_norm_mul_self]
      exact hnsq
    rcases mul_self_eq_one_iff.mp h2 with h | h
    · exact h
    · have := norm_nonneg ((Quaternion.equivTuple ℝ).symm ![0, 1, 0, 0])
      linarith
  have hw : |(4 / 250 : ℝ) / 2| * ‖(Quaternion.equivTuple ℝ).symm ![0, 1, 0, 0]‖ < 1 := by
    rw [hnorm, mul_one, abs_of_nonneg (by norm_num : (0 : ℝ) ≤ 4 / 250 / 2)]
    norm_num
  exact ⟨hq0, hw, orientation_unit_norm (4 / 250) ((Quaternion.equivTuple ℝ).symm ![0, 1, 0, 0])
    1 hq0 hw 10000⟩
